import Mathlib

/-!
Verification of the aigents-creator core against its specification.

The development shallowly embeds the Python sources:
* `scripts/import_practices.py` — title normalization, the batch import
  controller's per-item creation (`create_practice`) and main loop (`main`);
* `src/llm/orchestrator.py` — `LLMOrchestrator._normalize_response` and
  `LLMOrchestrator.generate_practice`;
* `src/llm/rag/retriever.py` — `HybridRetriever._combine_scores` and the
  ranking/sorting step of `HybridRetriever.retrieve`.

Machine floats are modelled as rationals; network calls are modelled as
explicit oracle arguments plus an effect trace so that "no storage call was
issued" is a statement about the trace.
-/

namespace Aigents

/-! ## Title normalization (`scripts/import_practices.py`, `normalize_title`) -/

/-- Python's `\s` whitespace class restricted to ASCII, as used by
`str.strip()` and the `\s+` in the article-stripping regex. -/
def pySpace (c : Char) : Bool :=
  c == ' ' || c == '\t' || c == '\n' || c == '\r' || c == Char.ofNat 11 || c == Char.ofNat 12

/-- `str.strip()`: remove leading and trailing whitespace. -/
def pyStrip (s : List Char) : List Char :=
  ((s.dropWhile pySpace).reverse.dropWhile pySpace).reverse

/-- One alternative of the anchored regex `^(The|A|An)\s+`: if `art` is a
prefix of `s` and is followed by at least one whitespace character, return the
remainder with that whitespace run removed. -/
def stripArticleWord (art : List Char) (s : List Char) : Option (List Char) :=
  if art.isPrefixOf s then
    match s.drop art.length with
    | [] => none
    | c :: rest => if pySpace c then some (rest.dropWhile pySpace) else none
  else none

/-- `re.sub(r'^(The|A|An)\s+', '', title)`: the alternation tries `The`,
then `A`, then `An`, leftmost-first, anchored at the start. -/
def stripArticle (s : List Char) : List Char :=
  match stripArticleWord ['T', 'h', 'e'] s with
  | some r => r
  | none =>
    match stripArticleWord ['A'] s with
    | some r => r
    | none =>
      match stripArticleWord ['A', 'n'] s with
      | some r => r
      | none => s

/-- `re.sub(r'[\x27"\x60]', '', title)`: delete apostrophes, double quotes and
backquotes (character codes 39, 34, 96). -/
def removeQuoteChars (s : List Char) : List Char :=
  s.filter fun c => !(c == Char.ofNat 39 || c == Char.ofNat 34 || c == Char.ofNat 96)

/-- Embeds `normalize_title` from `scripts/import_practices.py`: strip outer
whitespace, drop a leading article (case-sensitive), delete quote characters,
lower-case. -/
def normalize_title (s : String) : String :=
  String.mk ((removeQuoteChars (stripArticle (pyStrip s.data))).map Char.toLower)

/-! ## Orchestrator data model (`src/llm/orchestrator.py`) -/

/-- One implementation step, as produced by the generation backend and
persisted in a practice record. -/
structure Step where
  order : Nat
  title : String
  description : String
deriving DecidableEq

/-- The `domain` field of a parsed generation payload is shape-variant:
either a single string or a list of strings (`isinstance(domain, list)`). -/
inductive DomainField where
  | str (s : String)
  | list (l : List String)
deriving DecidableEq

/-- A parsed generation payload (the JSON object decoded from the backend's
raw answer). Every field the orchestrator reads is optional: `none` models a
missing key, so that `response.get(key, default)` is `Option.getD`. -/
structure Response where
  title : Option String := none
  summary : Option String := none
  problem : Option String := none
  solution : Option String := none
  visual_type : Option String := none
  visual_url : Option String := none
  visual_alt_text : Option String := none
  benefits : Option (List String) := none
  limitations : Option (List String) := none
  implementation_steps : Option (List Step) := none
  implementation_requirements : Option (List String) := none
  estimated_resources : Option (List String) := none
  domain : Option DomainField := none
  sub_domains : Option (List String) := none
  tags : Option (List String) := none
  creator : Option String := none
  category : Option String := none
  estimated_financial_cost_value : Option Int := none
  estimated_financial_cost_currency : Option String := none
  estimated_time_cost_minutes : Option Int := none
  language : Option String := none
deriving DecidableEq

/-- The normalized practice record built by `_normalize_response` (the dict
literal at its end): every key is present. -/
structure Practice where
  title : String
  summary : String
  problem : String
  solution : String
  visual_type : String
  visual_url : String
  visual_alt_text : String
  benefits : List String
  limitations : List String
  implementation_steps : List Step
  implementation_requirements : List String
  estimated_resources : List String
  domain : String
  sub_domains : List String
  tags : List String
  creator : String
  estimated_financial_cost_value : Int
  estimated_financial_cost_currency : String
  estimated_time_cost_minutes : Int
  language : String
  category : String
deriving DecidableEq

/-- The two-step default `implementation_steps` literal of
`_normalize_response`. -/
def default_steps : List Step :=
  [⟨1, "Plan and Prepare",
    "Define objectives and gather necessary resources for implementation. Create detailed timeline and assign responsibilities."⟩,
   ⟨2, "Execute and Monitor",
    "Implement the practice while monitoring progress and results. Make adjustments based on feedback and performance metrics."⟩]

/-- A one-character string, as Python produces when iterating over a string
(`list.extend(some_string)` appends its characters one by one). -/
def charStr (c : Char) : String := String.mk [c]

/-- Embeds `LLMOrchestrator._normalize_response`.

Care is taken to reproduce two behaviours of the Python code exactly:
* after `domain = domain[0]`, the guard `len(domain) > 1` and the call
  `sub_domains.extend(domain[1:])` operate on the *string* `domain[0]`, so
  what gets appended are its characters from index 1 on, not the remaining
  list elements;
* `sub_domains` at line 42 aliases `response["sub_domains"]` when that key is
  present, so the in-place `extend` is visible to the later
  `response.get("sub_domains", ["process_improvement"])`; when the key is
  absent the extension happens on a fresh list and is discarded. -/
def normalize_response (r : Response) : Practice :=
  let domain : String :=
    match r.domain with
    | none => "general"
    | some (DomainField.str s) => s
    | some (DomainField.list l) => l.headD "general"
  let ext : List String :=
    match r.domain with
    | some (DomainField.list l) =>
      let d := l.headD "general"
      if d.length > 1 then (d.data.drop 1).map charStr else []
    | _ => []
  { title := r.title.getD "Systematic Process Improvement Framework"
    summary := r.summary.getD "A comprehensive methodology for analyzing and improving organizational processes through systematic assessment, implementation, and continuous monitoring of improvements. This approach ensures sustainable positive changes."
    problem := r.problem.getD "Organizations often struggle with inefficient processes and lack of systematic approaches to improvement, leading to reduced productivity and missed opportunities for optimization."
    solution := r.solution.getD "Implementation of a structured framework that guides organizations through process assessment, improvement planning, and systematic implementation of changes, supported by clear metrics and continuous monitoring."
    visual_type := r.visual_type.getD ""
    visual_url := r.visual_url.getD ""
    visual_alt_text := r.visual_alt_text.getD ""
    benefits := r.benefits.getD
      ["Significant improvement in process efficiency and effectiveness through systematic implementation",
       "Enhanced quality and consistency of outputs through standardized approaches"]
    limitations := r.limitations.getD
      ["Requires significant time and resource investment for proper implementation and training",
       "May face resistance to change and require extensive change management efforts"]
    implementation_steps := r.implementation_steps.getD default_steps
    implementation_requirements := r.implementation_requirements.getD
      ["Experienced process improvement specialists",
       "Appropriate analysis and monitoring tools"]
    estimated_resources := r.estimated_resources.getD
      ["Process documentation and analysis tools",
       "Training materials and facilitation resources"]
    domain := domain
    sub_domains :=
      match r.sub_domains with
      | some s => s ++ ext
      | none => ["process_improvement"]
    tags := r.tags.getD ["best_practice", "process_improvement"]
    creator := r.creator.getD "system"
    estimated_financial_cost_value := 0
    estimated_financial_cost_currency := "USD"
    estimated_time_cost_minutes := 60
    language := "en"
    category := r.category.getD "concept" }

/-! ## Generation pipeline (`LLMOrchestrator.generate_practice`) -/

/-- The caller-supplied idea. `additional_details_category` models
`idea["additional_details"]["category"]` when both keys are present. -/
structure Idea where
  title : String := ""
  description : String := ""
  creator : Option String := none
  additional_details_category : Option String := none
deriving DecidableEq

/-- Typed pipeline failures, mirroring the `raise Exception(...)` sites of
`generate_practice`. -/
inductive PipelineError where
  | invalidJson
  | schemaValidation (violations : List String)
  | persistFailed (status : Nat)
deriving DecidableEq

/-- Observable network effects of one `generate_practice` invocation, in
program order. -/
inductive Effect where
  | generationCall
  | storagePost (p : Practice)
deriving DecidableEq

/-- Modelled from the spec: the canonical schema document
`src/schemas/practice_schema.json` loaded by the orchestrator is not part of
the source tree, so the validation predicate follows the spec's words —
required fields present (structurally guaranteed for the normalized record,
whose dict literal contains every key), category in
{concept, implementation}, list fields non-empty, language a valid
(two-letter lower-case) code. Returns the violation list; `[]` means the
record conforms. -/
def validate_practice (p : Practice) : List String :=
  (if p.category = "concept" ∨ p.category = "implementation" then []
   else ["category must be one of concept, implementation"]) ++
  (if p.benefits = [] then ["benefits must be non-empty"] else []) ++
  (if p.limitations = [] then ["limitations must be non-empty"] else []) ++
  (if p.implementation_steps = [] then ["implementation_steps must be non-empty"] else []) ++
  (if p.implementation_requirements = [] then ["implementation_requirements must be non-empty"] else []) ++
  (if p.estimated_resources = [] then ["estimated_resources must be non-empty"] else []) ++
  (if p.sub_domains = [] then ["sub_domains must be non-empty"] else []) ++
  (if p.tags = [] then ["tags must be non-empty"] else []) ++
  (if p.language.length = 2 ∧ p.language.data.all (fun c => c.isAlpha ∧ c.isLower) then []
   else ["language must be a valid code"])

/-- The record `generate_practice` builds from a successfully parsed payload
before validating: it overwrites `creator` with the caller-supplied identifier
(`idea.get("creator", "system")`), then overrides `category` from
`idea["additional_details"]["category"]` when present, then normalizes. -/
def pipeline_practice (idea : Idea) (r : Response) : Practice :=
  let r₁ := { r with creator := some (idea.creator.getD "system") }
  let r₂ :=
    match idea.additional_details_category with
    | some c => { r₁ with category := some c }
    | none => r₁
  normalize_response r₂

/-- Embeds `LLMOrchestrator.generate_practice` after the generation-backend
call: `gen` is the result of `json.loads` on the backend's raw answer
(`none` models a `JSONDecodeError`), `status` the storage backend's HTTP
status. Returns the pipeline result together with its effect trace. The
storage POST is issued whenever validation succeeded, before the status is
known; validation failure raises without any storage call. -/
def generate_practice (idea : Idea) (gen : Option Response) (status : Nat) :
    Except PipelineError Practice × List Effect :=
  match gen with
  | none => (Except.error PipelineError.invalidJson, [Effect.generationCall])
  | some r =>
    let p := pipeline_practice idea r
    if validate_practice p = [] then
      if status = 200 ∨ status = 201 then
        (Except.ok p, [Effect.generationCall, Effect.storagePost p])
      else
        (Except.error (PipelineError.persistFailed status),
         [Effect.generationCall, Effect.storagePost p])
    else
      (Except.error (PipelineError.schemaValidation (validate_practice p)),
       [Effect.generationCall])

/-- Number of storage POSTs in an effect trace. -/
def count_storage_posts (l : List Effect) : Nat :=
  (l.filter fun e =>
    match e with
    | Effect.storagePost _ => true
    | _ => false).length

/-! ## Batch import controller (`scripts/import_practices.py`) -/

/-- The dict `parse_practice` builds for one markdown chunk (the
`additional_details` sub-dict flattened into named fields). -/
structure PracticeData where
  title : String
  description : String := ""
  domain : String := ""
  tags : List String := []
  problem : String := ""
  solution : String := ""
  benefits : String := ""
  limitations : String := ""
  references : List String := []
deriving DecidableEq

/-- Observable effects of the import script's `create_practice`. -/
inductive ImportEffect where
  | createPost (pd : PracticeData)
  | successAppend (title : String)
  | failedAppend (title : String)
deriving DecidableEq

/-- Embeds the import script's `create_practice`: `succ` is the in-memory
`successful_practices` set of normalized titles, `postOk` whether the POST
to `/practice/create` returns a success status. The function catches every
failure internally (logging the title to the failure file), so it never
raises to its caller; on success it appends the raw title to the success
file and adds the normalized title to the set. Returns the updated set and
the effect trace. -/
def create_practice (succ : List String) (pd : PracticeData) (postOk : Bool) :
    List String × List ImportEffect :=
  let nt := normalize_title pd.title
  if nt ∈ succ then
    (succ, [])
  else if postOk then
    (succ ++ [nt], [ImportEffect.createPost pd, ImportEffect.successAppend pd.title])
  else
    (succ, [ImportEffect.createPost pd, ImportEffect.failedAppend pd.title])

/-- Number of creation POSTs in an import effect trace. -/
def count_create_posts (l : List ImportEffect) : Nat :=
  (l.filter fun e =>
    match e with
    | ImportEffect.createPost _ => true
    | _ => false).length

/-- One chunk of the source markdown split: blank (dropped from `total` and
skipped by the loop), non-blank but unparseable (`parse_practice` returns
`None`), or parsed to a practice whose creation POST succeeds or fails. -/
inductive Chunk where
  | blank
  | unparsed
  | parsed (pd : PracticeData) (postOk : Bool)
deriving DecidableEq

/-- The final summary the import script logs. -/
structure Summary where
  total : Nat
  success : Nat
  failed : Nat
  skipped : Nat
deriving DecidableEq

/-- One iteration of `main`'s loop over the chunks: state is the
`successful_practices` set and the `success`, `failed`, `skipped` counters.
`create_practice` never raises (it catches internally), so the
`try`/`except` around it never increments `failed`, and `success` is
incremented after every non-skipped attempt whether or not the POST
succeeded. -/
def main_step (st : List String × Nat × Nat × Nat) (c : Chunk) :
    List String × Nat × Nat × Nat :=
  match c with
  | Chunk.blank => st
  | Chunk.unparsed => st
  | Chunk.parsed pd postOk =>
    let (succ, s, f, k) := st
    if normalize_title pd.title ∈ succ then
      (succ, s, f, k + 1)
    else
      ((create_practice succ pd postOk).1, s + 1, f, k)

/-- Embeds the import script's `main`: `preloaded` is the lines of
`successful_practices.txt` (normalized and deduplicated into the starting
set, whose cardinality seeds the `success` counter), `chunks` the split of
the source file. Returns the logged summary: `total` counts non-blank
chunks, the other three counters come from the loop. -/
def run_main (preloaded : List String) (chunks : List Chunk) : Summary :=
  let succ₀ := (preloaded.map normalize_title).dedup
  let total := (chunks.filter fun c =>
    match c with
    | Chunk.blank => false
    | _ => true).length
  let st := chunks.foldl main_step (succ₀, succ₀.length, 0, 0)
  ⟨total, st.2.1, st.2.2.1, st.2.2.2⟩

/-! ## Hybrid retriever (`src/llm/rag/retriever.py`)

Score arithmetic is modelled over `ℚ`. -/

/-- `max(scores) if scores else 1.0`: Python's `max` over a non-empty list,
with the retriever's fallback of `1.0` for an empty one. -/
def listMax : List ℚ → ℚ
  | [] => 1
  | x :: xs => xs.foldl max x

/-- `self.bm25_weight` (0.3). -/
def bm25_weight : ℚ := 3 / 10

/-- `self.vector_weight` (0.7). -/
def vector_weight : ℚ := 7 / 10

/-- Embeds `HybridRetriever._combine_scores`: divide each list by its own
maximum, substituting divisor 1 when that maximum is 0 (or the list empty),
then combine elementwise with the fixed weights (`zip` truncates to the
shorter list, as in Python). -/
def combine_scores (bm25_scores vector_scores : List ℚ) : List ℚ :=
  let max_bm25 := listMax bm25_scores
  let max_vector := listMax vector_scores
  let max_bm25 := if max_bm25 = 0 then 1 else max_bm25
  let max_vector := if max_vector = 0 then 1 else max_vector
  let normalized_bm25 := bm25_scores.map fun s => s / max_bm25
  let normalized_vector := vector_scores.map fun s => s / max_vector
  (normalized_bm25.zip normalized_vector).map fun p =>
    bm25_weight * p.1 + vector_weight * p.2

/-- Stable descending insertion: `x` (which occurs *earlier* in the input
than every element of the accumulator list) is placed before the first
element whose key does not exceed `key x`. -/
def insertDesc {α : Type} (key : α → ℚ) (x : α) : List α → List α
  | [] => [x]
  | y :: ys => if key y ≤ key x then x :: y :: ys else y :: insertDesc key x ys

/-- Semantics of Python's stable `list.sort(key=..., reverse=True)` at line
124 of the retriever: the unique permutation that is sorted by descending key
and keeps input order among equal keys. Realized as stable insertion sort. -/
def sortDesc {α : Type} (key : α → ℚ) : List α → List α
  | [] => []
  | x :: xs => insertDesc key x (sortDesc key xs)

/-- A candidate document row fetched from the store: a practice row
left-joined with its optional embedding. -/
structure Doc where
  title : String := ""
  summary : String := ""
  problem : String := ""
  solution : String := ""
  embedding : Option (List ℚ) := none
deriving DecidableEq

/-- The `scored_docs` ranking step of `retrieve`: zip documents with their
combined scores and sort stably by descending score. -/
def rank_documents (documents : List Doc) (combined_scores : List ℚ) :
    List (Doc × ℚ) :=
  sortDesc (fun p => p.2) (documents.zip combined_scores)

/-- Network effects of one `retrieve` call, in program order. -/
inductive RetrievalEffect where
  | storeRead
  | embeddingCall (query : String)
deriving DecidableEq

/-- Embeds `HybridRetriever.retrieve`: `store` is what the store read
returns; the embedding backend and the two scoring methods are oracle
arguments (BM25 internals live in the external `rank_bm25` library, cosine
similarity in numpy). The empty-store check precedes the embedding call, so
an empty candidate set returns `[]` with only the store read in the trace. -/
def retrieve (query : String) (top_k : Nat) (store : List Doc)
    (get_embedding : String → List ℚ)
    (bm25_of : String → List Doc → List ℚ)
    (vector_of : List ℚ → List Doc → List ℚ) :
    List Doc × List RetrievalEffect :=
  if store.isEmpty then
    ([], [RetrievalEffect.storeRead])
  else
    let query_embedding := get_embedding query
    let bm25_scores := bm25_of query store
    let vector_scores := vector_of query_embedding store
    let combined := combine_scores bm25_scores vector_scores
    let ranked := rank_documents store combined
    ((ranked.take top_k).map Prod.fst,
     [RetrievalEffect.storeRead, RetrievalEffect.embeddingCall query])

/-! ## Helper lemmas about the stable descending sort -/

section SortLemmas

variable {α : Type} (key : α → ℚ)

theorem insertDesc_perm (x : α) (l : List α) :
    List.Perm (insertDesc key x l) (x :: l) := by
  induction l with
  | nil => exact List.Perm.refl _
  | cons y ys ih =>
    unfold insertDesc
    by_cases h : key y ≤ key x
    · simp [h]
    · simp only [h, if_false]
      exact (List.Perm.cons y ih).trans (List.Perm.swap x y ys)

theorem mem_insertDesc {x a : α} {l : List α} :
    a ∈ insertDesc key x l ↔ a = x ∨ a ∈ l := by
  rw [(insertDesc_perm key x l).mem_iff]
  simp

theorem insertDesc_sorted {x : α} {l : List α}
    (h : List.Pairwise (fun a b => key b ≤ key a) l) :
    List.Pairwise (fun a b => key b ≤ key a) (insertDesc key x l) := by
  induction l with
  | nil => simp [insertDesc]
  | cons y ys ih =>
    rcases List.pairwise_cons.mp h with ⟨hy, hys⟩
    unfold insertDesc
    by_cases hc : key y ≤ key x
    · simp only [hc, if_true]
      refine List.pairwise_cons.mpr ⟨?_, h⟩
      intro z hz
      rcases List.mem_cons.mp hz with rfl | hz
      · exact hc
      · exact le_trans (hy z hz) hc
    · simp only [hc, if_false]
      refine List.pairwise_cons.mpr ⟨?_, ih hys⟩
      intro z hz
      rcases (mem_insertDesc key).mp hz with rfl | hz
      · exact le_of_lt (lt_of_not_le hc)
      · exact hy z hz

theorem sortDesc_perm (l : List α) : List.Perm (sortDesc key l) l := by
  induction l with
  | nil => exact List.Perm.refl _
  | cons x xs ih =>
    exact (insertDesc_perm key x (sortDesc key xs)).trans (List.Perm.cons x ih)

theorem sortDesc_sorted (l : List α) :
    List.Pairwise (fun a b => key b ≤ key a) (sortDesc key l) := by
  induction l with
  | nil => simp [sortDesc]
  | cons x xs ih => exact insertDesc_sorted key ih

theorem filter_insertDesc (q : ℚ) (x : α) (l : List α) :
    (insertDesc key x l).filter (fun a => decide (key a = q)) =
      if key x = q then x :: l.filter (fun a => decide (key a = q))
      else l.filter (fun a => decide (key a = q)) := by
  induction l with
  | nil => by_cases hx : key x = q <;> simp [insertDesc, hx]
  | cons y ys ih =>
    unfold insertDesc
    by_cases hc : key y ≤ key x
    · rw [if_pos hc]
      by_cases hx : key x = q <;> simp [hx, List.filter_cons]
    · rw [if_neg hc]
      by_cases hx : key x = q
      · have hy : ¬ key y = q := fun h => hc (le_of_eq (h.trans hx.symm))
        simp [List.filter_cons, hy, ih, hx]
      · by_cases hy : key y = q <;> simp [List.filter_cons, hy, ih, hx]

theorem sortDesc_filter (q : ℚ) (l : List α) :
    (sortDesc key l).filter (fun a => decide (key a = q)) =
      l.filter (fun a => decide (key a = q)) := by
  induction l with
  | nil => rfl
  | cons x xs ih =>
    unfold sortDesc
    rw [filter_insertDesc]
    by_cases hx : key x = q <;> simp [hx, List.filter_cons, ih]

end SortLemmas

/-! ## Helper lemmas about `listMax` -/

theorem foldl_max_map_mul (c : ℚ) (hc : 0 ≤ c) (a : ℚ) (l : List ℚ) :
    (l.map fun s => c * s).foldl max (c * a) = c * l.foldl max a := by
  induction l generalizing a with
  | nil => rfl
  | cons x xs ih =>
    simp only [List.map_cons, List.foldl_cons]
    rw [← mul_max_of_nonneg _ _ hc]
    exact ih (max a x)

theorem listMax_map_mul (c : ℚ) (hc : 0 ≤ c) (l : List ℚ) (h : l ≠ []) :
    listMax (l.map fun s => c * s) = c * listMax l := by
  cases l with
  | nil => exact absurd rfl h
  | cons x xs => exact foldl_max_map_mul c hc x xs

theorem le_foldl_max (a : ℚ) (l : List ℚ) : a ≤ l.foldl max a := by
  induction l generalizing a with
  | nil => exact le_refl a
  | cons x xs ih => exact le_trans (le_max_left a x) (ih (max a x))

theorem mem_le_foldl_max {x : ℚ} {l : List ℚ} (a : ℚ) (h : x ∈ l) :
    x ≤ l.foldl max a := by
  induction l generalizing a with
  | nil => cases h
  | cons y ys ih =>
    rcases List.mem_cons.mp h with rfl | h
    · exact le_trans (le_max_right a x) (le_foldl_max _ ys)
    · exact ih (max a y) h

theorem le_listMax {x : ℚ} {l : List ℚ} (h : x ∈ l) : x ≤ listMax l := by
  cases l with
  | nil => cases h
  | cons y ys =>
    rcases List.mem_cons.mp h with rfl | h
    · exact le_foldl_max x ys
    · exact mem_le_foldl_max y h

/-! ## Claim theorems -/

/-- C4, counterexample: the claim asserts that `"Agile Retrospective's"`
normalizes to the same key as `"The Agile Retrospective"`; in fact removing
the apostrophe yields `"agile retrospectives"`, a different key (and the one
`"Agile Retrospectives"` maps to), so the claimed three-way equivalence is
false. -/
theorem normalize_title_claim_false :
    ¬ (normalize_title "The Agile Retrospective" = normalize_title "agile retrospective"
       ∧ normalize_title "agile retrospective" = normalize_title "Agile Retrospective's"
       ∧ normalize_title "Agile Retrospectives" ≠ normalize_title "The Agile Retrospective") := by
  intro h
  have h2 := h.2.1
  revert h2
  decide

/-- C4, amended: `"The Agile Retrospective"` and `"agile retrospective"`
normalize to the same key; `"Agile Retrospective's"` and
`"Agile Retrospectives"` normalize to a common key different from the first
one. -/
theorem normalize_title_equivalences :
    normalize_title "The Agile Retrospective" = normalize_title "agile retrospective"
    ∧ normalize_title "Agile Retrospective's" = normalize_title "Agile Retrospectives"
    ∧ normalize_title "agile retrospective" ≠ normalize_title "Agile Retrospectives" := by
  refine ⟨by decide, by decide, by decide⟩

/-- The parsed payload of C2's failing input:
`{"domain": ["ops", "security"], "sub_domains": []}`. -/
def c2_response : Response :=
  { domain := some (DomainField.list ["ops", "security"]), sub_domains := some [] }

/-- C2, code behaviour at the failing input: after `domain = domain[0]`, the
code evaluates `len(domain) > 1` and `sub_domains.extend(domain[1:])` on the
*string* `"ops"`, so the normalized record has `domain = "ops"` and
`sub_domains = ["p", "s"]` — the characters of `"ops"[1:]` — while
`"security"` is discarded, contradicting the claimed folding (which the
code's own comment announces). -/
theorem normalize_response_domain_folding_bug :
    (normalize_response c2_response).domain = "ops"
    ∧ (normalize_response c2_response).sub_domains = ["p", "s"]
    ∧ "security" ∉ (normalize_response c2_response).sub_domains := by
  refine ⟨rfl, rfl, by decide⟩

/-- C10: the normalization step pins `estimated_financial_cost_value`,
`estimated_financial_cost_currency`, `estimated_time_cost_minutes` and
`language` to the constants 0, "USD", 60 and "en" for every parsed payload,
so backend-supplied values for those four fields are always discarded. -/
theorem normalize_response_constant_fields (r : Response) :
    (normalize_response r).estimated_financial_cost_value = 0
    ∧ (normalize_response r).estimated_financial_cost_currency = "USD"
    ∧ (normalize_response r).estimated_time_cost_minutes = 60
    ∧ (normalize_response r).language = "en" :=
  ⟨rfl, rfl, rfl, rfl⟩

/-- A payload supplying its own values for the four pinned fields. -/
def c10_payload : Response :=
  { estimated_financial_cost_value := some 999
    estimated_financial_cost_currency := some "EUR"
    estimated_time_cost_minutes := some 5
    language := some "ru" }

/-- C10, witness: the backend-supplied 999/"EUR"/5/"ru" are all discarded. -/
theorem normalize_response_constant_fields_witness :
    (normalize_response c10_payload).estimated_financial_cost_value = 0
    ∧ (normalize_response c10_payload).estimated_financial_cost_currency = "USD"
    ∧ (normalize_response c10_payload).estimated_time_cost_minutes = 60
    ∧ (normalize_response c10_payload).language = "en" :=
  normalize_response_constant_fields c10_payload

/-- C9: two parsed payloads that differ only in their `creator` field yield
identical normalized records, and the persisted creator identifier is the
caller-supplied idea's (defaulting to `"system"`), never the payload's —
`generate_practice` overwrites `practice_json["creator"]` with
`idea.get("creator", "system")` before normalizing. -/
theorem pipeline_practice_creator_noninterference (idea : Idea) (r₁ r₂ : Response)
    (h : ({ r₁ with creator := none } : Response) = { r₂ with creator := none }) :
    pipeline_practice idea r₁ = pipeline_practice idea r₂
    ∧ (pipeline_practice idea r₁).creator = idea.creator.getD "system" := by
  have hcc : ({ r₁ with creator := some (idea.creator.getD "system") } : Response)
      = { r₂ with creator := some (idea.creator.getD "system") } :=
    congrArg (fun t : Response => { t with creator := some (idea.creator.getD "system") }) h
  constructor
  · unfold pipeline_practice
    rw [hcc]
  · unfold pipeline_practice
    cases hc : idea.additional_details_category <;> rfl

/-- Concrete idea for the C9 witness. -/
def c9_idea : Idea := { title := "Blameless Postmortems", creator := some "alice" }

/-- A payload in which the backend attempts to impersonate a creator. -/
def c9_payload_mallory : Response := { title := some "T", creator := some "mallory" }

/-- The same payload without the `creator` field. -/
def c9_payload_anon : Response := { title := some "T", creator := none }

/-- C9, witness: at the concrete inputs the two normalized records coincide
and carry the caller's creator identifier. -/
theorem pipeline_practice_creator_noninterference_witness :
    pipeline_practice c9_idea c9_payload_mallory = pipeline_practice c9_idea c9_payload_anon
    ∧ (pipeline_practice c9_idea c9_payload_mallory).creator = "alice" :=
  pipeline_practice_creator_noninterference c9_idea c9_payload_mallory c9_payload_anon rfl

/-- C1: a storage POST appears in `generate_practice`'s effect trace only for
a record that passed schema validation, and whenever the normalized record
fails validation the pipeline returns the schema-validation error with no
storage call in its trace. -/
theorem generate_practice_validation_gates_storage (idea : Idea) (gen : Option Response)
    (status : Nat) :
    (∀ p : Practice, Effect.storagePost p ∈ (generate_practice idea gen status).2 →
        validate_practice p = [])
    ∧ (∀ r : Response, gen = some r →
        validate_practice (pipeline_practice idea r) ≠ [] →
          (generate_practice idea gen status).1 =
            Except.error (PipelineError.schemaValidation
              (validate_practice (pipeline_practice idea r)))
          ∧ (generate_practice idea gen status).2 = [Effect.generationCall]) := by
  constructor
  · intro p hp
    cases gen with
    | none => simp [generate_practice] at hp
    | some r =>
      by_cases hv : validate_practice (pipeline_practice idea r) = []
      · by_cases hs : status = 200 ∨ status = 201 <;>
        · simp [generate_practice, hv, hs] at hp
          rw [hp]
          exact hv
      · simp [generate_practice, hv] at hp
  · intro r hr hnv
    subst hr
    refine ⟨?_, ?_⟩ <;> simp [generate_practice, hnv]

/-- Idea for the C1 witness: no overrides. -/
def c1_idea : Idea := {}

/-- A payload whose category is outside {concept, implementation}, so the
normalized record fails validation. -/
def c1_bad_payload : Response := { category := some "bogus" }

set_option maxRecDepth 8192 in
/-- C1, witness: at a concrete valid payload the record behind the issued
storage POST passes validation, and at the concrete non-conformant payload
the pipeline returns the schema-validation error with its trace holding only
the generation call. -/
theorem generate_practice_validation_gates_storage_witness :
    validate_practice (pipeline_practice c1_idea ({} : Response)) = []
    ∧ (generate_practice c1_idea (some c1_bad_payload) 200).1 =
        Except.error (PipelineError.schemaValidation
          (validate_practice (pipeline_practice c1_idea c1_bad_payload)))
    ∧ (generate_practice c1_idea (some c1_bad_payload) 200).2 = [Effect.generationCall] :=
  ⟨(generate_practice_validation_gates_storage c1_idea (some ({} : Response)) 201).1
      (pipeline_practice c1_idea ({} : Response)) (by decide),
   (generate_practice_validation_gates_storage c1_idea (some c1_bad_payload) 200).2
      c1_bad_payload rfl (by decide)⟩

/-- Idea for the C3 counterexample. -/
def c3_idea : Idea := { title := "Blameless Postmortems" }

/-- C3, counterexample: `generate_practice` performs no normalized-title
uniqueness check at all — it takes no success set and POSTs after every
successful validation — so two invocations with the *same* idea (titles
trivially normalizing to the same key) issue two storage writes, refuting
"at most one storage write occurs per normalized title" at the pipeline
level. -/
theorem generate_practice_writes_twice :
    count_storage_posts
      ((generate_practice c3_idea (some ({} : Response)) 201).2
        ++ (generate_practice c3_idea (some ({} : Response)) 201).2) = 2 := by
  decide

/-- C3, amended: the normalized-title uniqueness check lives in the
batch-import controller's `create_practice`, not in the orchestrator pipeline.
When the first invocation's title is not yet known and its POST succeeds,
a second invocation whose title normalizes to the same key returns without
any effect (idempotent skip), so the two invocations together issue exactly
one creation POST. -/
theorem create_practice_idempotent_skip (succ : List String) (pd₁ pd₂ : PracticeData)
    (ok : Bool)
    (hk : normalize_title pd₂.title = normalize_title pd₁.title)
    (h₁ : normalize_title pd₁.title ∉ succ) :
    create_practice (create_practice succ pd₁ true).1 pd₂ ok =
      ((create_practice succ pd₁ true).1, [])
    ∧ count_create_posts ((create_practice succ pd₁ true).2
        ++ (create_practice (create_practice succ pd₁ true).1 pd₂ ok).2) = 1 := by
  have hset : (create_practice succ pd₁ true).1 = succ ++ [normalize_title pd₁.title] := by
    simp [create_practice, h₁]
  have htrace : (create_practice succ pd₁ true).2 =
      [ImportEffect.createPost pd₁, ImportEffect.successAppend pd₁.title] := by
    simp [create_practice, h₁]
  have hmem : normalize_title pd₂.title ∈ succ ++ [normalize_title pd₁.title] := by
    rw [hk]
    exact List.mem_append_right succ (List.mem_singleton.mpr rfl)
  have hskip : create_practice (succ ++ [normalize_title pd₁.title]) pd₂ ok =
      (succ ++ [normalize_title pd₁.title], []) := by
    unfold create_practice
    rw [if_pos hmem]
  rw [hset, htrace, hskip]
  exact ⟨rfl, rfl⟩

/-- Items for the C3 witness: two parses of the same logical practice. -/
def c3_pd₁ : PracticeData := { title := "The Agile Retrospective" }

/-- Second item of the C3 witness, same normalized title as `c3_pd₁`. -/
def c3_pd₂ : PracticeData := { title := "agile retrospective" }

/-- C3, witness: at the concrete pair of items the second invocation is a
no-effect skip and exactly one creation POST is issued overall. -/
theorem create_practice_idempotent_skip_witness :
    create_practice (create_practice [] c3_pd₁ true).1 c3_pd₂ false =
      ((create_practice [] c3_pd₁ true).1, [])
    ∧ count_create_posts ((create_practice [] c3_pd₁ true).2
        ++ (create_practice (create_practice [] c3_pd₁ true).1 c3_pd₂ false).2) = 1 :=
  create_practice_idempotent_skip [] c3_pd₁ c3_pd₂ false (by decide) (by decide)

/-- Item for the C5 failing input: a parsed practice whose creation POST
fails. -/
def c5_pd : PracticeData := { title := "Blameless Postmortems" }

/-- C5, code behaviour at the failing input: with an empty preloaded success
file and one parsed item whose creation POST fails, the summary reports
`success = 1, failed = 0` — `create_practice` swallows the failure, so the
loop increments `success` for every attempted item; moreover `success` is
seeded with the preloaded count, so a run over zero items reports
`success = 1` when one title was preloaded. The claim requires
`succeeded = 0, failed = 1` for the first run. -/
theorem run_main_summary_miscounts :
    run_main [] [Chunk.parsed c5_pd false] = ⟨1, 1, 0, 0⟩
    ∧ run_main ["Existing Practice"] [] = ⟨0, 1, 0, 0⟩ :=
  ⟨rfl, rfl⟩

/-- C6: the ranking step of `retrieve` sorts the candidate documents by
descending combined score (pairwise, each later score ≤ each earlier one),
is a permutation of its input pairing, and is stable — for every score
value, the documents carrying it appear in input order. -/
theorem rank_documents_sorted_stable (documents : List Doc) (combined_scores : List ℚ) :
    List.Pairwise (fun a b => b.2 ≤ a.2) (rank_documents documents combined_scores)
    ∧ List.Perm (rank_documents documents combined_scores)
        (documents.zip combined_scores)
    ∧ ∀ q : ℚ,
        (rank_documents documents combined_scores).filter (fun p => decide (p.2 = q))
          = (documents.zip combined_scores).filter (fun p => decide (p.2 = q)) :=
  ⟨sortDesc_sorted _ _, sortDesc_perm _ _, fun q => sortDesc_filter _ q _⟩

/-- Two concrete candidate documents for the C6 witness. -/
def c6_doc_a : Doc := { title := "a" }

/-- Second concrete candidate document for the C6 witness. -/
def c6_doc_b : Doc := { title := "b" }

/-- C6, witness: the ranking of two concrete documents with tied scores is
sorted, a permutation of the input, and keeps the tied pair in input order. -/
theorem rank_documents_sorted_stable_witness :
    List.Pairwise (fun a b => b.2 ≤ a.2) (rank_documents [c6_doc_a, c6_doc_b] [1, 1])
    ∧ (rank_documents [c6_doc_a, c6_doc_b] [1, 1]).filter (fun p => decide (p.2 = 1))
        = ([c6_doc_a, c6_doc_b].zip [1, 1]).filter (fun p => decide (p.2 = 1)) :=
  ⟨(rank_documents_sorted_stable [c6_doc_a, c6_doc_b] [1, 1]).1,
   (rank_documents_sorted_stable [c6_doc_a, c6_doc_b] [1, 1]).2.2 1⟩

/-- C7, counterexample: the divisor-1 fallback fires whenever the list's
maximum equals 0, not only for an all-zero list, so for the lexical list
`[-1, 0]` and the positive constant 2 the combined scores change under
rescaling: the claim's universal quantification over score lists is false. -/
theorem combine_scores_not_scale_invariant :
    (0 : ℚ) < 2
    ∧ combine_scores ([-1, 0].map fun s => 2 * s) [0, 0] ≠ combine_scores [-1, 0] [0, 0] := by
  refine ⟨by norm_num, ?_⟩
  norm_num [combine_scores, listMax, bm25_weight, vector_weight]

/-- C7, amended: for lexical score lists with non-negative entries (which is
the only way the maximum can be 0 while the all-zero fallback is the
intended reading), multiplying every raw lexical score by a positive
constant leaves the combined scores unchanged. -/
theorem combine_scores_scale_invariant (c : ℚ) (hc : 0 < c)
    (bm25_scores vector_scores : List ℚ)
    (hnn : ∀ x ∈ bm25_scores, 0 ≤ x) :
    combine_scores (bm25_scores.map fun s => c * s) vector_scores =
      combine_scores bm25_scores vector_scores := by
  rcases eq_or_ne bm25_scores [] with rfl | hne
  · rfl
  · by_cases h0 : listMax bm25_scores = 0
    · have hall : ∀ x ∈ bm25_scores, c * x = x := by
        intro x hx
        have hx0 : x = 0 := le_antisymm (h0 ▸ le_listMax hx) (hnn x hx)
        rw [hx0, mul_zero]
      rw [List.map_congr_left hall, List.map_id']
    · have hcne : c ≠ 0 := ne_of_gt hc
      have hprod : c * listMax bm25_scores ≠ 0 := mul_ne_zero hcne h0
      have hmap : (bm25_scores.map fun s => c * s).map
            (fun s => s / (c * listMax bm25_scores))
          = bm25_scores.map fun s => s / listMax bm25_scores := by
        rw [List.map_map]
        refine List.map_congr_left ?_
        intro x _
        exact mul_div_mul_left x (listMax bm25_scores) hcne
      simp only [combine_scores, listMax_map_mul c hc.le bm25_scores hne,
        if_neg hprod, if_neg h0, hmap]

/-- C7, witness: at the concrete non-negative lexical list `[1, 2]`,
constant 2 and vector list `[5]`, rescaling leaves the combined scores
unchanged. -/
theorem combine_scores_scale_invariant_witness :
    combine_scores ([1, 2].map fun s => 2 * s) [5] = combine_scores [1, 2] [5] :=
  combine_scores_scale_invariant 2 (by norm_num) [1, 2] [5] (by decide)

/-- C8: when the store read yields no candidate documents, `retrieve`
returns the empty result and its effect trace holds only the store read —
in particular no embedding-backend call is made, since the emptiness check
precedes the embedding request. -/
theorem retrieve_empty_store_no_embedding (query : String) (top_k : Nat)
    (get_embedding : String → List ℚ)
    (bm25_of : String → List Doc → List ℚ)
    (vector_of : List ℚ → List Doc → List ℚ) :
    retrieve query top_k [] get_embedding bm25_of vector_of
      = ([], [RetrievalEffect.storeRead])
    ∧ ∀ q : String, RetrievalEffect.embeddingCall q ∉
        (retrieve query top_k [] get_embedding bm25_of vector_of).2 := by
  refine ⟨rfl, ?_⟩
  intro q hq
  simp [retrieve] at hq

/-- C8, witness: at a concrete query and oracles over the empty store the
result is empty and no embedding call for that query is in the trace. -/
theorem retrieve_empty_store_no_embedding_witness :
    retrieve "postmortems" 5 [] (fun _ => []) (fun _ _ => []) (fun _ _ => [])
      = ([], [RetrievalEffect.storeRead])
    ∧ RetrievalEffect.embeddingCall "postmortems" ∉
        (retrieve "postmortems" 5 [] (fun _ => []) (fun _ _ => []) (fun _ _ => [])).2 :=
  ⟨(retrieve_empty_store_no_embedding "postmortems" 5 (fun _ => []) (fun _ _ => [])
      (fun _ _ => [])).1,
   (retrieve_empty_store_no_embedding "postmortems" 5 (fun _ => []) (fun _ _ => [])
      (fun _ _ => [])).2 "postmortems"⟩

end Aigents
